import Mathlib

/-!
Verification of the quantum-performance-simulator secure-channel code:
a shallow embedding in Lean 4 of the handshake engines (classical ECDH and
post-quantum KEM+signature), the length-prefixed framing codec, the client
connect/disconnect state machine, the server message loop, and the benchmark
harness's timing and network-impairment model, together with theorems about
the claims of the specification.

Bytes are modelled as `Nat` (values 0..255 in the intended use), byte strings
as `List Nat`, and a TCP receive stream as `List (List Nat)`: the successive
chunks that `socket.recv` yields, where an empty chunk models the peer having
closed the connection (Python's `recv` returning `b""`).  Cryptographic
primitives (KEM encapsulation/decapsulation, signatures, HKDF, AES-GCM) are
external collaborators in the source and are modelled as explicit function
parameters bundled in `PQCPrims` / `ClassicalPrims` / `MsgPrims`.
-/

/-- Big-endian `int.from_bytes(bs, byteorder="big")`. -/
def intFromBytesBE (bs : List Nat) : Nat :=
  bs.foldl (fun acc b => acc * 256 + b) 0

/-- Big-endian `m.to_bytes(4, byteorder="big")` for `m < 2^32`. -/
def natToBytes4 (m : Nat) : List Nat :=
  [m / 2 ^ 24 % 256, m / 2 ^ 16 % 256, m / 2 ^ 8 % 256, m % 256]

theorem natToBytes4_length (m : Nat) : (natToBytes4 m).length = 4 := rfl

theorem natToBytes4_ne_nil (m : Nat) : natToBytes4 m ≠ [] := by
  simp [natToBytes4]

theorem intFromBytesBE_natToBytes4 (m : Nat) (h : m < 2 ^ 32) :
    intFromBytesBE (natToBytes4 m) = m := by
  simp only [intFromBytesBE, natToBytes4, List.foldl]
  omega

/--
Embedding of `_receive_exact` (identical in `ClassicalClient`, `PQCClient`
and `PQCServer`): loop `while len(data) < num_bytes`, calling
`recv(num_bytes - len(data))`; an empty chunk (closed connection) yields
`None`, otherwise the chunk is appended.  The stream argument is the sequence
of arriving chunks; a chunk longer than the current request is split, the
remainder staying at the head of the stream (as in a real socket buffer).
Returns the data read together with the unconsumed rest of the stream.
-/
def receiveExactAux (numBytes : Nat) (data : List Nat) :
    List (List Nat) → Option (List Nat × List (List Nat))
  | [] => if numBytes ≤ data.length then some (data, []) else none
  | c :: rest =>
    if numBytes ≤ data.length then some (data, c :: rest)
    else if c = [] then none
    else if numBytes - data.length ≤ c.length then
      some (data ++ c.take (numBytes - data.length),
        if c.drop (numBytes - data.length) = [] then rest
        else c.drop (numBytes - data.length) :: rest)
    else receiveExactAux numBytes (data ++ c) rest

/-- Embedding of `_receive_exact(num_bytes)`: start with empty `data`. -/
def receiveExact (numBytes : Nat) (s : List (List Nat)) :
    Option (List Nat × List (List Nat)) :=
  receiveExactAux numBytes [] s

/-- Number of bytes the stream supplies before it closes (an empty chunk
models the close; everything after it is unreachable). -/
def streamAvailable : List (List Nat) → Nat
  | [] => 0
  | c :: rest => if c = [] then 0 else c.length + streamAvailable rest

theorem receiveExactAux_spec (n : Nat) (s : List (List Nat)) :
    ∀ data : List Nat, data.length ≤ n →
      (∀ d s', receiveExactAux n data s = some (d, s') → d.length = n) ∧
      (receiveExactAux n data s = none ↔ data.length + streamAvailable s < n) := by
  induction s with
  | nil =>
    intro data hle
    constructor
    · intro d s' h
      simp only [receiveExactAux] at h
      split at h
      · next hnd => cases h; omega
      · cases h
    · simp only [receiveExactAux, streamAvailable]
      split
      · next hnd => simp; omega
      · next hnd => simp; omega
  | cons c rest ih =>
    intro data hle
    constructor
    · intro d s' h
      simp only [receiveExactAux] at h
      split at h
      · next hnd => cases h; omega
      · split at h
        · cases h
        · split at h
          · next hcl =>
            cases h
            simp only [List.length_append, List.length_take]
            omega
          · next hcl =>
            have hlen : (data ++ c).length ≤ n := by
              simp only [List.length_append]; omega
            exact (ih (data ++ c) hlen).1 d s' h
    · simp only [receiveExactAux, streamAvailable]
      split
      · next hnd =>
        simp only [reduceCtorEq, false_iff, not_lt]
        split <;> omega
      · next hnd =>
        split
        · next hc =>
          subst hc
          simp only [if_pos rfl, true_iff]
          omega
        · next hc =>
          split
          · next hcl =>
            simp only [reduceCtorEq, false_iff, not_lt]
            omega
          · next hcl =>
            have hlen : (data ++ c).length ≤ n := by
              simp only [List.length_append]; omega
            rw [(ih (data ++ c) hlen).2]
            simp only [List.length_append]
            omega

/--
Claim C4: for every requested byte count `n`, the exact-read primitive
returns exactly `n` bytes when the stream supplies them (looping over
partial reads), and returns the clean failure value `none` precisely when
the stream closes before `n` bytes are available.
-/
theorem receive_exact_exactness (n : Nat) (s : List (List Nat)) :
    (∀ d s', receiveExact n s = some (d, s') → d.length = n) ∧
    (receiveExact n s = none ↔ streamAvailable s < n) := by
  have h := receiveExactAux_spec n s [] (by simp)
  simpa [receiveExact] using h

theorem receive_exact_exactness_witness :
    ([7, 8] : List Nat).length = 2 ∧ receiveExact 3 [[7], []] = none :=
  ⟨(receive_exact_exactness 2 [[7], [8]]).1 [7, 8] [] (by decide),
   (receive_exact_exactness 3 [[7], []]).2.mpr (by decide)⟩

/-- Reading a whole chunk: when the head chunk has exactly the requested
(positive) length, the read returns it and consumes it. -/
theorem receiveExact_chunk (c : List Nat) (rest : List (List Nat)) (hne : c ≠ []) :
    receiveExact c.length (c :: rest) = some (c, rest) := by
  have hpos : 0 < c.length := List.length_pos.mpr hne
  simp only [receiveExact, receiveExactAux, List.length_nil, Nat.sub_zero]
  rw [if_neg (by omega), if_neg hne, if_pos (le_refl _)]
  simp

/-- Reading the 4-byte length field of a length-prefixed frame. -/
theorem receiveExact_lenField (m : Nat) (rest : List (List Nat)) :
    receiveExact 4 (natToBytes4 m :: rest) = some (natToBytes4 m, rest) := by
  have h := receiveExact_chunk (natToBytes4 m) rest (natToBytes4_ne_nil m)
  rwa [natToBytes4_length] at h

/--
External post-quantum primitives consumed by the handshake engines
(liboqs `KeyEncapsulation("Kyber768")` / `Signature("ML-DSA-65")` instances
on the two sides), modelled as explicit functions, plus the freshly generated
keypairs' public halves:
* `clientSigPub` / `serverSigPub`: `sig.generate_keypair()` on each side;
* `clientKemPub`: the client's `kem.generate_keypair()`;
* `clientSign` / `serverSign`: `sig.sign` with each side's secret key;
* `verify msg sig pk`: `sig.verify(msg, sig, pk)`;
* `encap pk`: the server's `kem.encap_secret(pk)` = (ciphertext, shared secret);
* `decap ct`: the client's `kem.decap_secret(ct)` with its KEM secret key.
-/
structure PQCPrims where
  clientSigPub : List Nat
  serverSigPub : List Nat
  clientKemPub : List Nat
  clientSign : List Nat → List Nat
  serverSign : List Nat → List Nat
  verify : List Nat → List Nat → List Nat → Bool
  encap : List Nat → List Nat × List Nat
  decap : List Nat → List Nat

/--
Embedding of `PQCClient._perform_pqc_key_exchange`.  Returns the derived
AES key (or `none` on any failure, mirroring every `return None` path and
the surrounding `except`) together with the list of chunks passed to
`sendall`, in order.  Length fields are modelled as always encodable in
4 bytes (`sendall` and `to_bytes` failures are outside the model); a falsy
check `if not x` on a received byte string is `if x = []` (the only falsy
non-`None` value `_receive_exact` can return).
-/
def pqcClientKeyExchange (p : PQCPrims) (s : List (List Nat)) :
    Option (List Nat) × List (List Nat) :=
  match receiveExact 4 s with
  | none => (none, [])
  | some (serverSigKeyLenBytes, s1) =>
    if serverSigKeyLenBytes = [] then (none, []) else
    match receiveExact (intFromBytesBE serverSigKeyLenBytes) s1 with
    | none => (none, [])
    | some (serverSigPublicKey, s2) =>
      if serverSigPublicKey = [] then (none, []) else
      let sent1 := [natToBytes4 p.clientSigPub.length, p.clientSigPub]
      let kemSignature := p.clientSign p.clientKemPub
      let sent2 := sent1 ++
        [natToBytes4 p.clientKemPub.length, p.clientKemPub,
         natToBytes4 kemSignature.length, kemSignature]
      match receiveExact 4 s2 with
      | none => (none, sent2)
      | some (ciphertextLenBytes, s3) =>
        if ciphertextLenBytes = [] then (none, sent2) else
        match receiveExact (intFromBytesBE ciphertextLenBytes) s3 with
        | none => (none, sent2)
        | some (ciphertext, s4) =>
          if ciphertext = [] then (none, sent2) else
          match receiveExact 4 s4 with
          | none => (none, sent2)
          | some (signatureLenBytes, s5) =>
            if signatureLenBytes = [] then (none, sent2) else
            match receiveExact (intFromBytesBE signatureLenBytes) s5 with
            | none => (none, sent2)
            | some (ciphertextSignature, _s6) =>
              if ciphertextSignature = [] then (none, sent2) else
              if p.verify ciphertext ciphertextSignature serverSigPublicKey then
                (some ((p.decap ciphertext).take 32), sent2)
              else (none, sent2)

/--
Embedding of `PQCServer._perform_pqc_key_exchange`, same conventions as
`pqcClientKeyExchange`: result key (or `none`) and sent chunks in order.
-/
def pqcServerKeyExchange (p : PQCPrims) (s : List (List Nat)) :
    Option (List Nat) × List (List Nat) :=
  let sent0 := [natToBytes4 p.serverSigPub.length, p.serverSigPub]
  match receiveExact 4 s with
  | none => (none, sent0)
  | some (clientSigKeyLenBytes, s1) =>
    if clientSigKeyLenBytes = [] then (none, sent0) else
    match receiveExact (intFromBytesBE clientSigKeyLenBytes) s1 with
    | none => (none, sent0)
    | some (clientSigPublicKey, s2) =>
      if clientSigPublicKey = [] then (none, sent0) else
      match receiveExact 4 s2 with
      | none => (none, sent0)
      | some (kemPkLenBytes, s3) =>
        if kemPkLenBytes = [] then (none, sent0) else
        match receiveExact (intFromBytesBE kemPkLenBytes) s3 with
        | none => (none, sent0)
        | some (clientKemPublicKey, s4) =>
          if clientKemPublicKey = [] then (none, sent0) else
          match receiveExact 4 s4 with
          | none => (none, sent0)
          | some (signatureLenBytes, s5) =>
            if signatureLenBytes = [] then (none, sent0) else
            match receiveExact (intFromBytesBE signatureLenBytes) s5 with
            | none => (none, sent0)
            | some (kemSignature, _s6) =>
              if kemSignature = [] then (none, sent0) else
              if p.verify clientKemPublicKey kemSignature clientSigPublicKey then
                let ctss := p.encap clientKemPublicKey
                let ciphertextSignature := p.serverSign ctss.1
                (some (ctss.2.take 32),
                 sent0 ++ [natToBytes4 ctss.1.length, ctss.1,
                           natToBytes4 ciphertextSignature.length, ciphertextSignature])
              else (none, sent0)

/--
External classical primitives consumed by the classical handshake engine
(`cryptography` library), modelled as explicit functions:
* `loadPem b`: `serialization.load_pem_public_key(b)`; a deserialization
  failure (Python exception, caught by the surrounding `except`) is `none`;
  the deserialized key object is modelled opaquely as `List Nat`;
* `clientPublicBytes` / `serverPublicBytes`: each side's freshly generated
  ECDH public key serialized to PEM;
* `clientExchange k`: `client_private_key.exchange(ec.ECDH(), k)`;
* `serverExchange k`: the server side's ECDH exchange with its private key;
* `hkdf length info ikm`: `HKDF(algorithm=SHA256, length, salt=None, info)
  .derive(ikm)`.
-/
structure ClassicalPrims where
  loadPem : List Nat → Option (List Nat)
  clientPublicBytes : List Nat
  serverPublicBytes : List Nat
  clientExchange : List Nat → List Nat
  serverExchange : List Nat → List Nat
  hkdf : Nat → List Nat → List Nat → List Nat

/-- The fixed HKDF domain-separation label `b"handshake data"` (ASCII). -/
def handshakeData : List Nat :=
  [104, 97, 110, 100, 115, 104, 97, 107, 101, 32, 100, 97, 116, 97]

/--
Embedding of `ClassicalClient._perform_key_exchange`: receive the server's
length-prefixed PEM public key, deserialize it, send own length-prefixed PEM
public key, compute the ECDH shared secret and derive the AES key with
HKDF-SHA256 (length 32, salt None, info `b"handshake data"`).  Returns the
derived key (or `none` on any failure path) and the chunks passed to
`sendall`, in order.
-/
def classicalClientKeyExchange (p : ClassicalPrims) (s : List (List Nat)) :
    Option (List Nat) × List (List Nat) :=
  match receiveExact 4 s with
  | none => (none, [])
  | some (serverKeyLenBytes, s1) =>
    if serverKeyLenBytes = [] then (none, []) else
    match receiveExact (intFromBytesBE serverKeyLenBytes) s1 with
    | none => (none, [])
    | some (serverPublicBytes, _s2) =>
      if serverPublicBytes = [] then (none, []) else
      match p.loadPem serverPublicBytes with
      | none => (none, [])
      | some serverPublicKey =>
        let sent := [natToBytes4 p.clientPublicBytes.length, p.clientPublicBytes]
        let sharedSecret := p.clientExchange serverPublicKey
        (some (p.hkdf 32 handshakeData sharedSecret), sent)

/--
Modelled from the spec: `server_classical.py` (class `ClassicalServer`) is
imported by the benchmark and the tests but is not under `src/`.  Spec §4.2
server role: "generate ECDH keypair → send serialized public key
(length-prefixed) → receive peer's serialized public key (length-prefixed) →
deserialize → compute shared secret via ECDH → derive 32-byte key", with the
§3 invariant that both peers use the same key-derivation step with the same
fixed domain-separation label, and the §4.2 failure policy that any
read/deserialize/compute failure aborts the handshake and yields no key.
-/
def classicalServerKeyExchange (p : ClassicalPrims) (s : List (List Nat)) :
    Option (List Nat) × List (List Nat) :=
  let sent0 := [natToBytes4 p.serverPublicBytes.length, p.serverPublicBytes]
  match receiveExact 4 s with
  | none => (none, sent0)
  | some (clientKeyLenBytes, s1) =>
    if clientKeyLenBytes = [] then (none, sent0) else
    match receiveExact (intFromBytesBE clientKeyLenBytes) s1 with
    | none => (none, sent0)
    | some (clientPublicBytes, _s2) =>
      if clientPublicBytes = [] then (none, sent0) else
      match p.loadPem clientPublicBytes with
      | none => (none, sent0)
      | some clientPublicKey =>
        let sharedSecret := p.serverExchange clientPublicKey
        (some (p.hkdf 32 handshakeData sharedSecret), sent0)

/-- The three length-prefixed frames the PQC client sends during the
handshake: its signature public key, its KEM public key, and its ML-DSA
signature over the KEM public key. -/
def pqcClientHelloFrames (p : PQCPrims) : List (List Nat) :=
  [natToBytes4 p.clientSigPub.length, p.clientSigPub,
   natToBytes4 p.clientKemPub.length, p.clientKemPub,
   natToBytes4 (p.clientSign p.clientKemPub).length, p.clientSign p.clientKemPub]

/-- The three length-prefixed frames the PQC server sends on a successful
handshake: its signature public key, the KEM ciphertext encapsulated against
the client's KEM public key, and its signature over that ciphertext. -/
def pqcServerFrames (p : PQCPrims) : List (List Nat) :=
  [natToBytes4 p.serverSigPub.length, p.serverSigPub,
   natToBytes4 (p.encap p.clientKemPub).1.length, (p.encap p.clientKemPub).1,
   natToBytes4 (p.serverSign (p.encap p.clientKemPub).1).length,
   p.serverSign (p.encap p.clientKemPub).1]

/-- Running the PQC server's key exchange on three well-formed incoming
frames: the result is determined by the signature verification. -/
theorem pqcServerKeyExchange_frames (p : PQCPrims) (csk kpk sg : List Nat)
    (h1 : csk ≠ []) (h2 : csk.length < 2 ^ 32)
    (h3 : kpk ≠ []) (h4 : kpk.length < 2 ^ 32)
    (h5 : sg ≠ []) (h6 : sg.length < 2 ^ 32) :
    pqcServerKeyExchange p
      [natToBytes4 csk.length, csk, natToBytes4 kpk.length, kpk,
       natToBytes4 sg.length, sg] =
    (if p.verify kpk sg csk then
      (some ((p.encap kpk).2.take 32),
       [natToBytes4 p.serverSigPub.length, p.serverSigPub,
        natToBytes4 (p.encap kpk).1.length, (p.encap kpk).1,
        natToBytes4 (p.serverSign (p.encap kpk).1).length, p.serverSign (p.encap kpk).1])
     else (none, [natToBytes4 p.serverSigPub.length, p.serverSigPub])) := by
  simp only [pqcServerKeyExchange, receiveExact_lenField,
    intFromBytesBE_natToBytes4 _ h2, intFromBytesBE_natToBytes4 _ h4,
    intFromBytesBE_natToBytes4 _ h6,
    receiveExact_chunk _ _ h1, receiveExact_chunk _ _ h3, receiveExact_chunk _ _ h5]
  simp [natToBytes4_ne_nil, h1, h3, h5]

/-- Running the PQC client's key exchange on three well-formed incoming
frames: the client's sends happen before its verification, and the derived
key is determined by the signature verification. -/
theorem pqcClientKeyExchange_frames (p : PQCPrims) (ssk ct ctSig : List Nat)
    (h1 : ssk ≠ []) (h2 : ssk.length < 2 ^ 32)
    (h3 : ct ≠ []) (h4 : ct.length < 2 ^ 32)
    (h5 : ctSig ≠ []) (h6 : ctSig.length < 2 ^ 32) :
    pqcClientKeyExchange p
      [natToBytes4 ssk.length, ssk, natToBytes4 ct.length, ct,
       natToBytes4 ctSig.length, ctSig] =
    (if p.verify ct ctSig ssk then (some ((p.decap ct).take 32), pqcClientHelloFrames p)
     else (none, pqcClientHelloFrames p)) := by
  simp only [pqcClientKeyExchange, receiveExact_lenField,
    intFromBytesBE_natToBytes4 _ h2, intFromBytesBE_natToBytes4 _ h4,
    intFromBytesBE_natToBytes4 _ h6,
    receiveExact_chunk _ _ h1, receiveExact_chunk _ _ h3, receiveExact_chunk _ _ h5]
  simp [pqcClientHelloFrames, natToBytes4_ne_nil, h1, h3, h5]

/-- Running the classical client's key exchange on one well-formed incoming
frame (the server's PEM public key). -/
theorem classicalClientKeyExchange_frames (p : ClassicalPrims) (spb : List Nat)
    (h1 : spb ≠ []) (h2 : spb.length < 2 ^ 32) :
    classicalClientKeyExchange p [natToBytes4 spb.length, spb] =
    (match p.loadPem spb with
     | none => (none, [])
     | some k =>
       (some (p.hkdf 32 handshakeData (p.clientExchange k)),
        [natToBytes4 p.clientPublicBytes.length, p.clientPublicBytes])) := by
  simp only [classicalClientKeyExchange, receiveExact_lenField,
    intFromBytesBE_natToBytes4 _ h2, receiveExact_chunk _ _ h1]
  simp [natToBytes4_ne_nil, h1]

/-- Running the spec-modelled classical server's key exchange on one
well-formed incoming frame (the client's PEM public key). -/
theorem classicalServerKeyExchange_frames (p : ClassicalPrims) (cpb : List Nat)
    (h1 : cpb ≠ []) (h2 : cpb.length < 2 ^ 32) :
    classicalServerKeyExchange p [natToBytes4 cpb.length, cpb] =
    (match p.loadPem cpb with
     | none => (none, [natToBytes4 p.serverPublicBytes.length, p.serverPublicBytes])
     | some k =>
       (some (p.hkdf 32 handshakeData (p.serverExchange k)),
        [natToBytes4 p.serverPublicBytes.length, p.serverPublicBytes])) := by
  simp only [classicalServerKeyExchange, receiveExact_lenField,
    intFromBytesBE_natToBytes4 _ h2, receiveExact_chunk _ _ h1]
  simp [natToBytes4_ne_nil, h1]

/--
Claim C1: for every handshake in which client and server both complete
without failure, the 32-byte symmetric AES key derived on the client is
byte-identical to the one derived on the server — in the classical (ECDH)
mode (with the `ClassicalServer` role modelled from the spec, the file being
absent from the source tree) and in the post-quantum (KEM) mode — assuming
the correctness of the underlying key-agreement primitive (the two ECDH
exchanges agree, and decapsulating the encapsulated ciphertext returns the
encapsulated shared secret).  The theorem also checks the wire formats
mesh: each side's sent frames are exactly the stream the other side reads.
-/
theorem handshake_key_agreement
    (cp : ClassicalPrims) (p : PQCPrims)
    (hc1 : cp.serverPublicBytes ≠ []) (hc2 : cp.serverPublicBytes.length < 2 ^ 32)
    (hc3 : cp.clientPublicBytes ≠ []) (hc4 : cp.clientPublicBytes.length < 2 ^ 32)
    (spk cpk : List Nat)
    (hl1 : cp.loadPem cp.serverPublicBytes = some spk)
    (hl2 : cp.loadPem cp.clientPublicBytes = some cpk)
    (hecdh : cp.clientExchange spk = cp.serverExchange cpk)
    (hp1 : p.clientSigPub ≠ []) (hp2 : p.clientSigPub.length < 2 ^ 32)
    (hp3 : p.clientKemPub ≠ []) (hp4 : p.clientKemPub.length < 2 ^ 32)
    (hp5 : p.clientSign p.clientKemPub ≠ [])
    (hp6 : (p.clientSign p.clientKemPub).length < 2 ^ 32)
    (hp7 : p.serverSigPub ≠ []) (hp8 : p.serverSigPub.length < 2 ^ 32)
    (hp9 : (p.encap p.clientKemPub).1 ≠ [])
    (hp10 : (p.encap p.clientKemPub).1.length < 2 ^ 32)
    (hp11 : p.serverSign (p.encap p.clientKemPub).1 ≠ [])
    (hp12 : (p.serverSign (p.encap p.clientKemPub).1).length < 2 ^ 32)
    (hv1 : p.verify p.clientKemPub (p.clientSign p.clientKemPub) p.clientSigPub = true)
    (hv2 : p.verify (p.encap p.clientKemPub).1
             (p.serverSign (p.encap p.clientKemPub).1) p.serverSigPub = true)
    (hkem : p.decap (p.encap p.clientKemPub).1 = (p.encap p.clientKemPub).2) :
    (∃ k, classicalClientKeyExchange cp
            [natToBytes4 cp.serverPublicBytes.length, cp.serverPublicBytes] =
            (some k, [natToBytes4 cp.clientPublicBytes.length, cp.clientPublicBytes]) ∧
          classicalServerKeyExchange cp
            [natToBytes4 cp.clientPublicBytes.length, cp.clientPublicBytes] =
            (some k, [natToBytes4 cp.serverPublicBytes.length, cp.serverPublicBytes])) ∧
    (∃ k, pqcClientKeyExchange p (pqcServerFrames p) = (some k, pqcClientHelloFrames p) ∧
          pqcServerKeyExchange p (pqcClientHelloFrames p) = (some k, pqcServerFrames p)) := by
  constructor
  · refine ⟨cp.hkdf 32 handshakeData (cp.clientExchange spk), ?_, ?_⟩
    · rw [classicalClientKeyExchange_frames cp _ hc1 hc2, hl1]
    · rw [classicalServerKeyExchange_frames cp _ hc3 hc4, hl2, hecdh]
  · refine ⟨(p.encap p.clientKemPub).2.take 32, ?_, ?_⟩
    · have h := pqcClientKeyExchange_frames p p.serverSigPub (p.encap p.clientKemPub).1
        (p.serverSign (p.encap p.clientKemPub).1) hp7 hp8 hp9 hp10 hp11 hp12
      rw [pqcServerFrames, h, if_pos hv2, hkem]
    · have h := pqcServerKeyExchange_frames p p.clientSigPub p.clientKemPub
        (p.clientSign p.clientKemPub) hp1 hp2 hp3 hp4 hp5 hp6
      rw [pqcClientHelloFrames, h, if_pos hv1, pqcServerFrames]

/-- Concrete classical primitives used to witness the handshake theorems:
deserialization is the identity, both ECDH exchanges return the same bytes,
and HKDF is a label-prepending truncation. -/
def exClassicalPrims : ClassicalPrims where
  loadPem := fun b => some b
  clientPublicBytes := [5]
  serverPublicBytes := [6]
  clientExchange := fun _ => [11, 12]
  serverExchange := fun _ => [11, 12]
  hkdf := fun n info ikm => (info ++ ikm).take n

/-- Concrete post-quantum primitives used to witness the handshake theorems:
signing appends a side-specific tag byte, verification checks it against the
matching public key, and encapsulation/decapsulation agree on a 32-byte
shared secret. -/
def exPQCPrims : PQCPrims where
  clientSigPub := [1]
  serverSigPub := [2]
  clientKemPub := [3]
  clientSign := fun m => m ++ [9]
  serverSign := fun m => m ++ [8]
  verify := fun m sg k => (sg == m ++ [9] && k == [1]) || (sg == m ++ [8] && k == [2])
  encap := fun pk => (pk ++ [4], List.replicate 32 7)
  decap := fun _ => List.replicate 32 7

theorem handshake_key_agreement_witness :
    (∃ k, classicalClientKeyExchange exClassicalPrims
            [natToBytes4 exClassicalPrims.serverPublicBytes.length,
             exClassicalPrims.serverPublicBytes] =
            (some k, [natToBytes4 exClassicalPrims.clientPublicBytes.length,
                      exClassicalPrims.clientPublicBytes]) ∧
          classicalServerKeyExchange exClassicalPrims
            [natToBytes4 exClassicalPrims.clientPublicBytes.length,
             exClassicalPrims.clientPublicBytes] =
            (some k, [natToBytes4 exClassicalPrims.serverPublicBytes.length,
                      exClassicalPrims.serverPublicBytes])) ∧
    (∃ k, pqcClientKeyExchange exPQCPrims (pqcServerFrames exPQCPrims) =
            (some k, pqcClientHelloFrames exPQCPrims) ∧
          pqcServerKeyExchange exPQCPrims (pqcClientHelloFrames exPQCPrims) =
            (some k, pqcServerFrames exPQCPrims)) :=
  handshake_key_agreement exClassicalPrims exPQCPrims
    (by decide) (by decide) (by decide) (by decide) [6] [5]
    (by decide) (by decide) (by decide)
    (by decide) (by decide) (by decide) (by decide) (by decide) (by decide)
    (by decide) (by decide) (by decide) (by decide) (by decide) (by decide)
    (by decide) (by decide) (by decide)

/-- The mutable fields of `ClassicalClient` / `PQCClient` (the two classes
have identical `__init__`, `connect` success/failure handling and
`disconnect` bodies); the socket object is modelled opaquely. -/
structure ClientState where
  host : String
  port : Nat
  clientSocket : Option Unit
  aesgcm : Option (List Nat)
  connected : Bool

/-- Embedding of `ClassicalClient.__init__` / `PQCClient.__init__`. -/
def clientInit (host : String) (port : Nat) : ClientState :=
  { host := host, port := port, clientSocket := none, aesgcm := none,
    connected := false }

/--
Embedding of `ClassicalClient.disconnect` / `PQCClient.disconnect`:
set `connected = False`; if a socket is present, `close()` it inside a
`try/except` whose handler only prints (so a close failure, the
`closeRaises` argument, is swallowed and never alters the result); then set
`client_socket = None` and `aesgcm = None`.
-/
def clientDisconnect (st : ClientState) (closeRaises : Bool) : ClientState :=
  let st1 := { st with connected := false }
  let _swallowed := closeRaises
  { st1 with clientSocket := none, aesgcm := none }

/-- Outcome of `socket.connect((host, port))` — e.g. `ConnectionRefusedError`
when no listener is on the port. -/
inductive SocketConnectResult
  | ok
  | err

/--
Embedding of `PQCClient.connect`: create the socket, connect (an exception
is caught, `disconnect()` runs, and `False` is returned), run
`_perform_pqc_key_exchange`; a falsy key (`None` or `b""`) triggers
`disconnect()` and `False`; `AESGCM(aes_key)` raises on a key that is not
16, 24 or 32 bytes (caught likewise); otherwise store the cipher, set
`connected = True` and return `True`.
-/
def pqcConnect (p : PQCPrims) (sk : SocketConnectResult) (s : List (List Nat))
    (st : ClientState) : Bool × ClientState :=
  match sk with
  | .err => (false, clientDisconnect { st with clientSocket := some () } false)
  | .ok =>
    let st1 := { st with clientSocket := some () }
    match (pqcClientKeyExchange p s).1 with
    | none => (false, clientDisconnect st1 false)
    | some key =>
      if key = [] then (false, clientDisconnect st1 false)
      else if key.length = 16 ∨ key.length = 24 ∨ key.length = 32 then
        (true, { st1 with aesgcm := some key, connected := true })
      else (false, clientDisconnect st1 false)

/-- Embedding of `ClassicalClient.connect` (same structure as
`pqcConnect`, with the classical key exchange). -/
def classicalConnect (cp : ClassicalPrims) (sk : SocketConnectResult)
    (s : List (List Nat)) (st : ClientState) : Bool × ClientState :=
  match sk with
  | .err => (false, clientDisconnect { st with clientSocket := some () } false)
  | .ok =>
    let st1 := { st with clientSocket := some () }
    match (classicalClientKeyExchange cp s).1 with
    | none => (false, clientDisconnect st1 false)
    | some key =>
      if key = [] then (false, clientDisconnect st1 false)
      else if key.length = 16 ∨ key.length = 24 ∨ key.length = 32 then
        (true, { st1 with aesgcm := some key, connected := true })
      else (false, clientDisconnect st1 false)

/--
Claim C2: every signature verification failure in the post-quantum
handshake is a hard abort yielding no key and opening no channel: a server
whose verification of the client's signature over the KEM public key fails
returns no key; a client whose verification of the server's signature over
the ciphertext fails returns no key, and its `connect` returns `False` with
the `connected` flag still `False` (and no cipher retained).
-/
theorem pqc_verification_failure_fail_closed (p : PQCPrims)
    (csk kpk sg : List Nat)
    (h1 : csk ≠ []) (h2 : csk.length < 2 ^ 32)
    (h3 : kpk ≠ []) (h4 : kpk.length < 2 ^ 32)
    (h5 : sg ≠ []) (h6 : sg.length < 2 ^ 32)
    (hvs : p.verify kpk sg csk = false)
    (ssk ct ctSig : List Nat)
    (g1 : ssk ≠ []) (g2 : ssk.length < 2 ^ 32)
    (g3 : ct ≠ []) (g4 : ct.length < 2 ^ 32)
    (g5 : ctSig ≠ []) (g6 : ctSig.length < 2 ^ 32)
    (hvc : p.verify ct ctSig ssk = false)
    (st : ClientState) :
    (pqcServerKeyExchange p
       [natToBytes4 csk.length, csk, natToBytes4 kpk.length, kpk,
        natToBytes4 sg.length, sg]).1 = none ∧
    (pqcClientKeyExchange p
       [natToBytes4 ssk.length, ssk, natToBytes4 ct.length, ct,
        natToBytes4 ctSig.length, ctSig]).1 = none ∧
    (pqcConnect p .ok
       [natToBytes4 ssk.length, ssk, natToBytes4 ct.length, ct,
        natToBytes4 ctSig.length, ctSig] st).1 = false ∧
    (pqcConnect p .ok
       [natToBytes4 ssk.length, ssk, natToBytes4 ct.length, ct,
        natToBytes4 ctSig.length, ctSig] st).2.connected = false ∧
    (pqcConnect p .ok
       [natToBytes4 ssk.length, ssk, natToBytes4 ct.length, ct,
        natToBytes4 ctSig.length, ctSig] st).2.aesgcm = none := by
  have hs := pqcServerKeyExchange_frames p csk kpk sg h1 h2 h3 h4 h5 h6
  have hc := pqcClientKeyExchange_frames p ssk ct ctSig g1 g2 g3 g4 g5 g6
  rw [hvs] at hs
  rw [hvc] at hc
  simp only [Bool.false_eq_true, if_false] at hs hc
  refine ⟨by rw [hs], by rw [hc], ?_, ?_, ?_⟩ <;>
    simp [pqcConnect, hc, clientDisconnect]

theorem pqc_verification_failure_fail_closed_witness :
    (pqcServerKeyExchange exPQCPrims
       [natToBytes4 1, [1], natToBytes4 1, [3], natToBytes4 1, [7]]).1 = none ∧
    (pqcClientKeyExchange exPQCPrims
       [natToBytes4 1, [2], natToBytes4 1, [3], natToBytes4 1, [7]]).1 = none ∧
    (pqcConnect exPQCPrims .ok
       [natToBytes4 1, [2], natToBytes4 1, [3], natToBytes4 1, [7]]
       (clientInit "localhost" 12346)).1 = false ∧
    (pqcConnect exPQCPrims .ok
       [natToBytes4 1, [2], natToBytes4 1, [3], natToBytes4 1, [7]]
       (clientInit "localhost" 12346)).2.connected = false ∧
    (pqcConnect exPQCPrims .ok
       [natToBytes4 1, [2], natToBytes4 1, [3], natToBytes4 1, [7]]
       (clientInit "localhost" 12346)).2.aesgcm = none :=
  pqc_verification_failure_fail_closed exPQCPrims
    [1] [3] [7] (by decide) (by decide) (by decide) (by decide) (by decide)
    (by decide) (by decide)
    [2] [3] [7] (by decide) (by decide) (by decide) (by decide) (by decide)
    (by decide) (by decide) (clientInit "localhost" 12346)

/--
Claim C7: whenever a client's `connect` fails at any stage (socket
connection refused, or any failure inside the key exchange: short frame
read, deserialization, signature verification, shared-secret computation),
it returns `False` and leaves `connected = False` with no AEAD cipher
retained (`aesgcm = None`) — for both `ClassicalClient` and `PQCClient`;
in particular a socket-level connection failure always returns `False`.
-/
theorem connect_failure_clean_state (cp : ClassicalPrims) (p : PQCPrims)
    (sk : SocketConnectResult) (s : List (List Nat)) (st : ClientState) :
    ((classicalConnect cp sk s st).1 = false →
       (classicalConnect cp sk s st).2.connected = false ∧
       (classicalConnect cp sk s st).2.aesgcm = none) ∧
    ((pqcConnect p sk s st).1 = false →
       (pqcConnect p sk s st).2.connected = false ∧
       (pqcConnect p sk s st).2.aesgcm = none) ∧
    (classicalConnect cp .err s st).1 = false ∧
    (pqcConnect p .err s st).1 = false := by
  refine ⟨?_, ?_, by simp [classicalConnect], by simp [pqcConnect]⟩
  · cases sk with
    | err => simp [classicalConnect, clientDisconnect]
    | ok =>
      cases hkey : (classicalClientKeyExchange cp s).1 with
      | none => simp [classicalConnect, hkey, clientDisconnect]
      | some key =>
        simp only [classicalConnect, hkey]
        split_ifs <;> simp [clientDisconnect]
  · cases sk with
    | err => simp [pqcConnect, clientDisconnect]
    | ok =>
      cases hkey : (pqcClientKeyExchange p s).1 with
      | none => simp [pqcConnect, hkey, clientDisconnect]
      | some key =>
        simp only [pqcConnect, hkey]
        split_ifs <;> simp [clientDisconnect]

theorem connect_failure_clean_state_witness :
    ((classicalConnect exClassicalPrims .err [] (clientInit "localhost" 12345)).2.connected
       = false ∧
     (classicalConnect exClassicalPrims .err [] (clientInit "localhost" 12345)).2.aesgcm
       = none) ∧
    ((pqcConnect exPQCPrims .err [] (clientInit "localhost" 12345)).2.connected = false ∧
     (pqcConnect exPQCPrims .err [] (clientInit "localhost" 12345)).2.aesgcm = none) ∧
    (classicalConnect exClassicalPrims .err [] (clientInit "localhost" 12345)).1 = false ∧
    (pqcConnect exPQCPrims .err [] (clientInit "localhost" 12345)).1 = false :=
  ⟨(connect_failure_clean_state exClassicalPrims exPQCPrims .err []
      (clientInit "localhost" 12345)).1 (by decide),
   (connect_failure_clean_state exClassicalPrims exPQCPrims .err []
      (clientInit "localhost" 12345)).2.1 (by decide),
   (connect_failure_clean_state exClassicalPrims exPQCPrims .err []
      (clientInit "localhost" 12345)).2.2⟩

/--
Claim C9: the client `disconnect` operation (identical in `ClassicalClient`
and `PQCClient`) never raises — a socket-close failure is swallowed, the
result not depending on it — and always yields the same final state:
`connected = False`, `client_socket = None`, `aesgcm = None` (host and port
untouched); it is idempotent and safe before any connection was established.
-/
theorem disconnect_idempotent_clean (st : ClientState) (b b' : Bool)
    (host : String) (port : Nat) :
    (clientDisconnect st b).connected = false ∧
    (clientDisconnect st b).clientSocket = none ∧
    (clientDisconnect st b).aesgcm = none ∧
    (clientDisconnect st b).host = st.host ∧
    (clientDisconnect st b).port = st.port ∧
    clientDisconnect st b = clientDisconnect st b' ∧
    clientDisconnect (clientDisconnect st b) b' = clientDisconnect st b ∧
    clientDisconnect (clientInit host port) b = clientInit host port := by
  simp [clientDisconnect, clientInit]

/-- External message-layer primitive: `aesgcm.decrypt(nonce, ct, None)`
followed by `plaintext.decode("utf-8")`; any exception (authentication
failure, malformed UTF-8) is caught by the surrounding `except` and yields
`none`.  The decrypted text is modelled as a list of characters. -/
structure MsgPrims where
  decryptDecode : List Nat → List Nat → Option (List Char)

/--
Embedding of `PQCServer._receive_encrypted_message`: read the four
length-prefixed fields `nonce_length | nonce | ciphertext_length |
ciphertext` (each falsy read result — `None` or `b""` — returns `None`),
then decrypt and decode.
-/
def receiveEncryptedMessage (mp : MsgPrims) (s : List (List Nat)) :
    Option (List Char) :=
  match receiveExact 4 s with
  | none => none
  | some (nonceLenBytes, s1) =>
    if nonceLenBytes = [] then none else
    match receiveExact (intFromBytesBE nonceLenBytes) s1 with
    | none => none
    | some (nonce, s2) =>
      if nonce = [] then none else
      match receiveExact 4 s2 with
      | none => none
      | some (ciphertextLenBytes, s3) =>
        if ciphertextLenBytes = [] then none else
        match receiveExact (intFromBytesBE ciphertextLenBytes) s3 with
        | none => none
        | some (ciphertext, _s4) =>
          if ciphertext = [] then none else
          mp.decryptDecode nonce ciphertext

/-- The observable per-connection server state touched by
`PQCServer._handle_client`'s message loop: the thread-safe
`last_received_message` slot and whether `message_received_event.set()`
has been called. -/
structure ServerLoopState where
  lastReceivedMessage : Option (List Char)
  eventSet : Bool

/-- Python's case-insensitive sentinel comparison `message.lower()`. -/
def lowerMsg (m : List Char) : List Char :=
  m.map Char.toLower

/-- The reserved sentinel `"exit"`. -/
def exitChars : List Char :=
  ['e', 'x', 'i', 't']

/--
Embedding of the message-reception loop of `PQCServer._handle_client`
(lines 71-89): the input list is the successive results of
`_receive_encrypted_message` (`none` for a failure/disconnect, which breaks
the loop).  For each decrypted message the loop first stores it in the
last-received slot and signals the event, then breaks if and only if the
message lowercased equals `"exit"`; the list running out models the
`running` flag being cleared.
-/
def handleClientLoop (st : ServerLoopState) :
    List (Option (List Char)) → ServerLoopState
  | [] => st
  | none :: _ => st
  | some m :: rest =>
    let st1 := { st with lastReceivedMessage := some m, eventSet := true }
    if lowerMsg m = exitChars then st1
    else handleClientLoop st1 rest

/-- The messages the loop delivers (stores and signals): all successfully
decrypted messages up to and including the first case-insensitive
`"exit"`, stopping (exclusively) at the first reception failure. -/
def deliveredMessages : List (Option (List Char)) → List (List Char)
  | [] => []
  | none :: _ => []
  | some m :: rest =>
    m :: (if lowerMsg m = exitChars then [] else deliveredMessages rest)

/-- The last element of a list of messages, or a default. -/
def lastMsgOr (d : Option (List Char)) (l : List (List Char)) :
    Option (List Char) :=
  match l.getLast? with
  | some m => some m
  | none => d

/--
Claim C8: every message the per-connection serve loop successfully decrypts
is delivered — stored in the last-received-message slot and the observable
event signaled — and the loop then terminates immediately after processing
that message if and only if the message, lowercased, equals `"exit"`; any
other message leaves the loop running on the remaining receptions.
-/
theorem handle_client_exit_sentinel (st : ServerLoopState)
    (rs : List (Option (List Char))) :
    (handleClientLoop st rs).lastReceivedMessage =
      lastMsgOr st.lastReceivedMessage (deliveredMessages rs) ∧
    (handleClientLoop st rs).eventSet =
      (st.eventSet || !(deliveredMessages rs).isEmpty) ∧
    (∀ m rest, handleClientLoop st (some m :: rest) =
      (if lowerMsg m = exitChars
       then { st with lastReceivedMessage := some m, eventSet := true }
       else handleClientLoop
              { st with lastReceivedMessage := some m, eventSet := true } rest)) ∧
    (∀ m ∈ (deliveredMessages rs).dropLast, lowerMsg m ≠ exitChars) := by
  refine ⟨?_, ?_, fun m rest => by simp [handleClientLoop], ?_⟩
  · induction rs generalizing st with
    | nil => simp [handleClientLoop, deliveredMessages, lastMsgOr]
    | cons r rest ih =>
      cases r with
      | none => simp [handleClientLoop, deliveredMessages, lastMsgOr]
      | some m =>
        by_cases hx : lowerMsg m = exitChars
        · simp [handleClientLoop, deliveredMessages, hx, lastMsgOr]
        · simp only [handleClientLoop, deliveredMessages, if_neg hx]
          rw [ih]
          cases hd : deliveredMessages rest with
          | nil => simp [lastMsgOr, hd]
          | cons a l =>
            rcases hg : (a :: l).getLast? with _ | b
            · simp at hg
            · simp [lastMsgOr, hd, hg]
  · induction rs generalizing st with
    | nil => simp [handleClientLoop, deliveredMessages]
    | cons r rest ih =>
      cases r with
      | none => simp [handleClientLoop, deliveredMessages]
      | some m =>
        by_cases hx : lowerMsg m = exitChars
        · simp [handleClientLoop, deliveredMessages, hx]
        · simp only [handleClientLoop, deliveredMessages, if_neg hx]
          rw [ih]
          cases hd : deliveredMessages rest with
          | nil => simp [hd]
          | cons a l => simp [hd]
  · induction rs with
    | nil => simp [deliveredMessages]
    | cons r rest ih =>
      cases r with
      | none => simp [deliveredMessages]
      | some m =>
        by_cases hx : lowerMsg m = exitChars
        · simp [deliveredMessages, hx]
        · simp only [deliveredMessages, if_neg hx]
          intro a ha
          cases hd : deliveredMessages rest with
          | nil => rw [hd] at ha; simp at ha
          | cons b l =>
            rw [hd] at ha
            rw [List.dropLast_cons_of_ne_nil (by simp)] at ha
            rcases List.mem_cons.mp ha with h | h
            · subst h; exact hx
            · exact ih a (by rw [hd]; exact h)

theorem handle_client_exit_sentinel_witness :
    (handleClientLoop ⟨none, false⟩
       [some ['h', 'i'], some ['E', 'x', 'i', 't'], some ['z']]).lastReceivedMessage =
      lastMsgOr none (deliveredMessages
        [some ['h', 'i'], some ['E', 'x', 'i', 't'], some ['z']]) ∧
    lowerMsg ['h', 'i'] ≠ exitChars :=
  ⟨(handle_client_exit_sentinel ⟨none, false⟩
      [some ['h', 'i'], some ['E', 'x', 'i', 't'], some ['z']]).1,
   (handle_client_exit_sentinel ⟨none, false⟩
      [some ['h', 'i'], some ['E', 'x', 'i', 't'], some ['z']]).2.2.2
     ['h', 'i'] (by decide)⟩

/-- A zero-byte read returns the empty byte string immediately, consuming
nothing (the `while` loop body never runs). -/
theorem receiveExact_zero (s : List (List Nat)) :
    receiveExact 0 s = some ([], s) := by
  cases s <;> simp [receiveExact, receiveExactAux]

/--
Claim C10: a frame whose 4-byte length field is zero is indistinguishable
from a closed stream at every receiver: `_receive_exact(0)` returns the
empty byte string, which every caller's falsy check treats as a
connection-closed failure, so a zero-length field (zero-length public key,
nonce, ciphertext or signature) aborts the handshake or message reception
instead of delivering an empty payload.
-/
theorem zero_length_field_aborts :
    (∀ s, receiveExact 0 s = some ([], s)) ∧
    (∀ mp rest, receiveEncryptedMessage mp (natToBytes4 0 :: rest) = none) ∧
    (∀ p rest, (pqcClientKeyExchange p (natToBytes4 0 :: rest)).1 = none) ∧
    (∀ p rest, (pqcServerKeyExchange p (natToBytes4 0 :: rest)).1 = none) ∧
    (∀ cp rest, (classicalClientKeyExchange cp (natToBytes4 0 :: rest)).1 = none) := by
  have hz : intFromBytesBE (natToBytes4 0) = 0 :=
    intFromBytesBE_natToBytes4 0 (by norm_num)
  refine ⟨receiveExact_zero, ?_, ?_, ?_, ?_⟩ <;>
    intro x rest <;>
    simp [receiveEncryptedMessage, pqcClientKeyExchange, pqcServerKeyExchange,
      classicalClientKeyExchange, receiveExact_lenField, hz, receiveExact_zero,
      natToBytes4_ne_nil]

/--
Embedding of `_simulate_network_penalties` (benchmark.py), modelling Python
floats as exact rationals and the draw `random.uniform(0.0, jitter)` as
`u * jitter` for a parameter `u ∈ [0, 1]`:
`adjusted = elapsed + max(latency, 0)`; if `packet_loss_percent > 0`,
`adjusted *= 1 + packet_loss_percent/100`, then
`jitter = adjusted * (packet_loss_percent/500)` (computed from the
already-multiplied value) and the draw is added.
-/
def simulateNetworkPenalties (elapsedMs latencyMs packetLossPercent u : ℚ) : ℚ :=
  let adjusted := elapsedMs + max latencyMs 0
  if 0 < packetLossPercent then
    let adjusted1 := adjusted * (1 + packetLossPercent / 100)
    let jitter := adjusted1 * (packetLossPercent / 500)
    adjusted1 + u * jitter
  else adjusted

/--
Claim C5: the network impairment function computes
`adjusted = raw + max(latency, 0)`; when `packet_loss_percent > 0` it
multiplies `adjusted` by `1 + packet_loss_percent/100` and adds a uniformly
random jitter from `[0, adjusted * packet_loss_percent/500]`, the jitter
bound using the already-multiplied value; for `raw=100, latency=30, loss=0`
the result is exactly `130`, and for `loss=2` it lies in
`[130*1.02, 130*1.02 + 130*1.02*0.004]`.
-/
theorem network_impairment_model (e l p u : ℚ) :
    (¬0 < p → simulateNetworkPenalties e l p u = e + max l 0) ∧
    (0 < p → 0 ≤ e → 0 ≤ u → u ≤ 1 →
      (e + max l 0) * (1 + p / 100) ≤ simulateNetworkPenalties e l p u ∧
      simulateNetworkPenalties e l p u ≤
        (e + max l 0) * (1 + p / 100) +
          (e + max l 0) * (1 + p / 100) * (p / 500)) ∧
    simulateNetworkPenalties 100 30 0 u = 130 ∧
    (0 ≤ u → u ≤ 1 →
      130 * (102 / 100) ≤ simulateNetworkPenalties 100 30 2 u ∧
      simulateNetworkPenalties 100 30 2 u ≤
        130 * (102 / 100) + 130 * (102 / 100) * (4 / 1000)) := by
  refine ⟨?_, ?_, ?_, ?_⟩
  · intro hp
    simp [simulateNetworkPenalties, hp]
  · intro hp he hu hu1
    have hmax : (0 : ℚ) ≤ max l 0 := le_max_right l 0
    have ha : 0 ≤ e + max l 0 := by linarith
    have ha1 : 0 ≤ (e + max l 0) * (1 + p / 100) := by nlinarith
    have hj : 0 ≤ (e + max l 0) * (1 + p / 100) * (p / 500) := by positivity
    simp only [simulateNetworkPenalties, if_pos hp]
    constructor
    · nlinarith
    · nlinarith
  · norm_num [simulateNetworkPenalties]
  · intro hu hu1
    have hp2 : (0 : ℚ) < 2 := by norm_num
    simp only [simulateNetworkPenalties, if_pos hp2]
    norm_num
    constructor <;> nlinarith

theorem network_impairment_model_witness :
    (¬(0 : ℚ) < 0 → simulateNetworkPenalties 100 30 0 (1 / 2) = 100 + max 30 0) ∧
    simulateNetworkPenalties 100 30 0 (1 / 2) = 130 ∧
    (130 * (102 / 100) ≤ simulateNetworkPenalties 100 30 2 (1 / 2) ∧
      simulateNetworkPenalties 100 30 2 (1 / 2) ≤
        130 * (102 / 100) + 130 * (102 / 100) * (4 / 1000)) :=
  ⟨(network_impairment_model 100 30 0 (1 / 2)).1,
   (network_impairment_model 100 30 0 (1 / 2)).2.2.1,
   (network_impairment_model 100 30 2 (1 / 2)).2.2.2 (by norm_num) (by norm_num)⟩

/-- The durations (milliseconds, modelled as exact rationals) of the
operations one benchmark iteration performs, and whether `client.connect()`
succeeds. -/
structure HandshakeDurations where
  connectOk : Bool
  connectMs : ℚ
  clientDisconnectMs : ℚ
  serverStopMs : ℚ
  joinMs : ℚ

/--
Embedding of the timed section of `measure_classical_handshake` as a clock
timeline: the server thread is started, `time.sleep(0.1)` settles, the
client object is created, then `start_time = time.perf_counter()`;
`client.connect()` runs (failure raises `RuntimeError`, so no elapsed value
is produced: `none`); `client.disconnect()` runs; then
`elapsed_ms = (time.perf_counter() - start_time) * 1000` is recorded.  The
`finally` block (second disconnect, `server.stop()`, `join`, `sleep`)
runs after the second `perf_counter` call and is not in the timeline.
-/
def measureClassicalRawElapsedMs (d : HandshakeDurations) : Option ℚ :=
  let settleSleepMs : ℚ := 100
  let tStart := settleSleepMs
  if d.connectOk then
    let tAfterConnect := tStart + d.connectMs
    let tAfterDisconnect := tAfterConnect + d.clientDisconnectMs
    some (tAfterDisconnect - tStart)
  else none

/-- Embedding of the timed section of `measure_pqc_handshake`, whose body
is line-for-line the same timeline as `measure_classical_handshake`. -/
def measurePqcRawElapsedMs (d : HandshakeDurations) : Option ℚ :=
  let settleSleepMs : ℚ := 100
  let tStart := settleSleepMs
  if d.connectOk then
    let tAfterConnect := tStart + d.connectMs
    let tAfterDisconnect := tAfterConnect + d.clientDisconnectMs
    some (tAfterDisconnect - tStart)
  else none

/--
Claim C6 counterexample: the recorded raw elapsed time is NOT the interval
from just before opening the client socket to just after the handshake
completes — with a connect lasting 5 ms and the client disconnect lasting
3 ms, both measurement routines record 8 ms, not 5 ms: the timed interval
extends past `client.disconnect()`.
-/
theorem benchmark_timing_counterexample :
    measureClassicalRawElapsedMs
      { connectOk := true, connectMs := 5, clientDisconnectMs := 3,
        serverStopMs := 2, joinMs := 1 } = some 8 ∧
    measurePqcRawElapsedMs
      { connectOk := true, connectMs := 5, clientDisconnectMs := 3,
        serverStopMs := 2, joinMs := 1 } = some 8 ∧
    some (8 : ℚ) ≠ some (5 : ℚ) := by
  refine ⟨?_, ?_, by norm_num⟩ <;>
    simp [measureClassicalRawElapsedMs, measurePqcRawElapsedMs] <;> norm_num

/--
Claim C6 (amended): in each benchmark iteration, for both modes, the
recorded raw elapsed time covers the interval from just before
`client.connect()` (which opens the client socket) to just after
`client.disconnect()` returns — i.e. connect-and-handshake plus the
client-side teardown — excluding message exchange and server teardown
(`server.stop()`, thread join and inter-iteration sleep do not affect it).
-/
theorem benchmark_timing_interval (d : HandshakeDurations)
    (h : d.connectOk = true) (x y : ℚ) :
    measureClassicalRawElapsedMs d = some (d.connectMs + d.clientDisconnectMs) ∧
    measurePqcRawElapsedMs d = some (d.connectMs + d.clientDisconnectMs) ∧
    measureClassicalRawElapsedMs { d with serverStopMs := x, joinMs := y } =
      measureClassicalRawElapsedMs d ∧
    measurePqcRawElapsedMs { d with serverStopMs := x, joinMs := y } =
      measurePqcRawElapsedMs d := by
  refine ⟨?_, ?_, ?_, ?_⟩ <;>
    simp [measureClassicalRawElapsedMs, measurePqcRawElapsedMs, h] <;> ring

theorem benchmark_timing_interval_witness :
    measureClassicalRawElapsedMs
      { connectOk := true, connectMs := 5, clientDisconnectMs := 3,
        serverStopMs := 2, joinMs := 1 } = some (5 + 3) ∧
    measurePqcRawElapsedMs
      { connectOk := true, connectMs := 5, clientDisconnectMs := 3,
        serverStopMs := 2, joinMs := 1 } = some (5 + 3) ∧
    measureClassicalRawElapsedMs
      { connectOk := true, connectMs := 5, clientDisconnectMs := 3,
        serverStopMs := 0, joinMs := 0 } =
      measureClassicalRawElapsedMs
        { connectOk := true, connectMs := 5, clientDisconnectMs := 3,
          serverStopMs := 2, joinMs := 1 } ∧
    measurePqcRawElapsedMs
      { connectOk := true, connectMs := 5, clientDisconnectMs := 3,
        serverStopMs := 0, joinMs := 0 } =
      measurePqcRawElapsedMs
        { connectOk := true, connectMs := 5, clientDisconnectMs := 3,
          serverStopMs := 2, joinMs := 1 } :=
  benchmark_timing_interval
    { connectOk := true, connectMs := 5, clientDisconnectMs := 3,
      serverStopMs := 2, joinMs := 1 } rfl 0 0

/--
Modelled from the spec's words (§3 data model): "raw secret bytes from ECDH
or KEM decapsulation are passed through a key-derivation step with a fixed
domain-separation label to produce exactly 32 bytes, used as an AEAD key" —
the derivation the classical path actually performs (the key-derivation
primitive at length 32 with the fixed label `b"handshake data"`), stated as
a function of the primitive and the raw secret, for comparison with what
the post-quantum path computes.
-/
def specLabeledKeyDerivation (kdf : Nat → List Nat → List Nat → List Nat)
    (rawSecret : List Nat) : List Nat :=
  kdf 32 handshakeData rawSecret

/-- An example key-derivation primitive that honors the requested output
length for every input (pads with zero bytes before truncating). -/
def exKdf (n : Nat) (info ikm : List Nat) : List Nat :=
  (info ++ ikm ++ List.replicate n 0).take n

theorem exKdf_length (info ikm : List Nat) : (exKdf 32 info ikm).length = 32 := by
  simp [exKdf]
  omega

/-- Classical primitives whose key-derivation primitive honors the
requested output length. -/
def exClassicalPrimsKdf : ClassicalPrims :=
  { exClassicalPrims with hkdf := exKdf }

/--
Claim C3 counterexample: in the post-quantum mode the raw shared secret is
NOT passed through a key-derivation step with a fixed domain-separation
label — a concrete completed client handshake returns, as its AES key, the
raw decapsulated shared secret itself, byte for byte (its first 32 bytes,
here all 32), and that differs from the spec's labeled derivation of the
same secret under the example key-derivation primitive.
-/
theorem pqc_key_derivation_counterexample :
    (pqcClientKeyExchange exPQCPrims
       [natToBytes4 1, [2], natToBytes4 1, [3], natToBytes4 2, [3, 8]]).1 =
      some (List.replicate 32 7) ∧
    exPQCPrims.decap [3] = List.replicate 32 7 ∧
    specLabeledKeyDerivation exClassicalPrimsKdf.hkdf (List.replicate 32 7) ≠
      List.replicate 32 7 := by
  decide

/--
Claim C3 (amended): in the classical mode the raw ECDH shared secret is
passed through the key-derivation primitive with the fixed
domain-separation label `b"handshake data"` producing exactly 32 bytes
(assuming the primitive honors the requested length), used as the AEAD
key; in the post-quantum mode, on both sides, the raw shared secret from
KEM encapsulation/decapsulation is truncated to its first 32 bytes and
used directly as the AEAD key — exactly 32 bytes whenever the secret has
at least 32 (Kyber768's has exactly 32) — with no key-derivation step and
no label.
-/
theorem key_derivation_amended
    (cp : ClassicalPrims) (p : PQCPrims)
    (hc1 : cp.serverPublicBytes ≠ []) (hc2 : cp.serverPublicBytes.length < 2 ^ 32)
    (spk : List Nat) (hl1 : cp.loadPem cp.serverPublicBytes = some spk)
    (hkdfLen : ∀ info ikm, (cp.hkdf 32 info ikm).length = 32)
    (ssk ct ctSig : List Nat)
    (g1 : ssk ≠ []) (g2 : ssk.length < 2 ^ 32)
    (g3 : ct ≠ []) (g4 : ct.length < 2 ^ 32)
    (g5 : ctSig ≠ []) (g6 : ctSig.length < 2 ^ 32)
    (hvc : p.verify ct ctSig ssk = true)
    (hsec : 32 ≤ (p.decap ct).length)
    (csk kpk sg : List Nat)
    (h1 : csk ≠ []) (h2 : csk.length < 2 ^ 32)
    (h3 : kpk ≠ []) (h4 : kpk.length < 2 ^ 32)
    (h5 : sg ≠ []) (h6 : sg.length < 2 ^ 32)
    (hvs : p.verify kpk sg csk = true)
    (hss : 32 ≤ (p.encap kpk).2.length) :
    (classicalClientKeyExchange cp
       [natToBytes4 cp.serverPublicBytes.length, cp.serverPublicBytes]).1 =
      some (specLabeledKeyDerivation cp.hkdf (cp.clientExchange spk)) ∧
    (specLabeledKeyDerivation cp.hkdf (cp.clientExchange spk)).length = 32 ∧
    (pqcClientKeyExchange p
       [natToBytes4 ssk.length, ssk, natToBytes4 ct.length, ct,
        natToBytes4 ctSig.length, ctSig]).1 = some ((p.decap ct).take 32) ∧
    ((p.decap ct).take 32).length = 32 ∧
    (pqcServerKeyExchange p
       [natToBytes4 csk.length, csk, natToBytes4 kpk.length, kpk,
        natToBytes4 sg.length, sg]).1 = some ((p.encap kpk).2.take 32) ∧
    ((p.encap kpk).2.take 32).length = 32 := by
  refine ⟨?_, hkdfLen handshakeData (cp.clientExchange spk), ?_, ?_, ?_, ?_⟩
  · rw [classicalClientKeyExchange_frames cp _ hc1 hc2, hl1]
    rfl
  · rw [pqcClientKeyExchange_frames p ssk ct ctSig g1 g2 g3 g4 g5 g6, if_pos hvc]
  · simp only [List.length_take]
    omega
  · rw [pqcServerKeyExchange_frames p csk kpk sg h1 h2 h3 h4 h5 h6, if_pos hvs]
  · simp only [List.length_take]
    omega

theorem key_derivation_amended_witness :
    (classicalClientKeyExchange exClassicalPrimsKdf
       [natToBytes4 exClassicalPrimsKdf.serverPublicBytes.length,
        exClassicalPrimsKdf.serverPublicBytes]).1 =
      some (specLabeledKeyDerivation exClassicalPrimsKdf.hkdf
        (exClassicalPrimsKdf.clientExchange [6])) ∧
    (specLabeledKeyDerivation exClassicalPrimsKdf.hkdf
      (exClassicalPrimsKdf.clientExchange [6])).length = 32 ∧
    (pqcClientKeyExchange exPQCPrims
       [natToBytes4 1, [2], natToBytes4 1, [3], natToBytes4 2, [3, 8]]).1 =
      some ((exPQCPrims.decap [3]).take 32) ∧
    ((exPQCPrims.decap [3]).take 32).length = 32 ∧
    (pqcServerKeyExchange exPQCPrims
       [natToBytes4 1, [1], natToBytes4 1, [3], natToBytes4 2, [3, 9]]).1 =
      some ((exPQCPrims.encap [3]).2.take 32) ∧
    ((exPQCPrims.encap [3]).2.take 32).length = 32 :=
  key_derivation_amended exClassicalPrimsKdf exPQCPrims
    (by decide) (by decide) [6] (by decide)
    (fun info ikm => exKdf_length info ikm)
    [2] [3] [3, 8] (by decide) (by decide) (by decide) (by decide) (by decide)
    (by decide) (by decide) (by decide)
    [1] [3] [3, 9] (by decide) (by decide) (by decide) (by decide) (by decide)
    (by decide) (by decide) (by decide)
